import Mathlib

/-!
Verification of the `rut-data-extractor` service (`src/app.py`).

The development shallowly embeds the pure core of the program:

* `format_rut_lenient` — the lenient RUT normalizer (`app.py`, lines 24-39);
* `ensure_has_tds` — the "has a data row" predicate (line 97-98), the
  regex search for `<tr[^>]*>[\s\S]*?<td[^>]*>`;
* `extract_first_tr_values` — first-row cell extraction (lines 100-112),
  the regexes `<tr[^>]*>([\s\S]*?)</tr>` and `<td[^>]*>(.*?)</td>` plus
  tag stripping, whitespace collapsing and trimming;
* `map_values` — positional field mapping (lines 114-128);
* `get_rut` / `get_rut_raw` — the two endpoint handlers (lines 135-213),
  modelled as pure functions of the outcome of the direct (requests) tier
  and of the HTML that the browser (Playwright) tier would produce.

Strings are processed as `List Char`; `Char.toLower`/`Char.toUpper` model
Python's `str.lower`/`str.upper` (the inputs of interest are ASCII).
Regex searches are embedded as deterministic scanners; each scanner is
the standard unfolding of its pattern (anchors are literal characters,
`[^>]*` runs to the first `>`, lazy groups stop at the first occurrence
of the literal that follows).
-/

/-! ## Identifier normalizer (`format_rut_lenient`, app.py lines 24-39) -/

/-- The characters kept by the normalizer: the input is lower-cased and
only digits and `k` survive (`"".join(ch for ch in str(raw).lower() if
ch.isdigit() or ch == "k")`). -/
def keptChars (raw : String) : List Char :=
  (raw.data.map Char.toLower).filter (fun c => c.isDigit || c == 'k')

/-- `[rev[i:i+3] for i in range(0, len(rev), 3)]`: grouping into runs of
three characters, last run possibly shorter. -/
def chunksOf3 : List Char → List (List Char)
  | [] => []
  | [a] => [[a]]
  | [a, b] => [[a, b]]
  | a :: b :: c :: rest => [a, b, c] :: chunksOf3 rest

/-- `".".join(...)`: interpose a dot between the groups. -/
def dotJoin : List (List Char) → List Char
  | [] => []
  | [g] => g
  | g :: gs => g ++ '.' :: dotJoin gs

/-- `format_rut_lenient` (app.py lines 24-39): keep digits/`k` of the
lower-cased input; fail on empty input or fewer than two kept characters;
otherwise split the last character off as the check character (upper-cased)
and regroup the body in threes from the right, dot-separated, dash before
the check character. -/
def format_rut_lenient (raw : String) : Option String :=
  if raw = "" then none
  else
    let s := keptChars raw
    if s.length < 2 then none
    else
      let body := s.dropLast
      let dv := (s.getLastD ' ').toUpper
      let dotted := dotJoin (((chunksOf3 body.reverse).reverse).map List.reverse)
      some (String.mk (dotted ++ ['-', dv]))

/-! ## The canonical pattern of the spec

The spec asserts the invariant that every normalizer output matches the
regex `\d{1,3}(\.\d{3})*-[0-9K]` (full match).  The matcher below is the
deterministic unfolding of that regex: the leading digit run must have
length 1-3, every following group is a dot and exactly three digits, and
the string ends in a dash and one digit-or-`K` character.  (Greedy
scanning is faithful here: a group starts with `.`, the tail starts with
`-`, and neither can begin inside the other.) -/

/-- Tail of the pattern: `-[0-9K]` at end of input. -/
def matchTail : List Char → Bool
  | ['-', c] => c.isDigit || c == 'K'
  | _ => false

/-- `(\.\d{3})*-[0-9K]` at end of input. -/
def matchRest : List Char → Bool
  | '.' :: a :: b :: c :: rest => a.isDigit && b.isDigit && c.isDigit && matchRest rest
  | l => matchTail l

/-- Full match of `\d{1,3}(\.\d{3})*-[0-9K]`. -/
def matchesCanonical (s : String) : Bool :=
  let run := s.data.takeWhile Char.isDigit
  (1 ≤ run.length && run.length ≤ 3) && matchRest (s.data.dropWhile Char.isDigit)

/-! ## HTML scanning (`TD_RX`, `TR_RX`, `ensure_has_tds`,
`extract_first_tr_values`, app.py lines 51-112)

The regexes are case-insensitive; letters of tag names are compared
through `Char.toLower`.  `re.search` semantics: a pattern of the shape
`<xy[^>]*> … ` matches at the first position carrying a complete opening
tag, and — since the close of any later opening tag lies no earlier —
the whole search succeeds iff the first complete opening tag is followed
by the rest of the pattern. -/

/-- Consume characters up to and including the first `>` (the `[^>]*>`
part of an opening-tag pattern); `none` when no `>` remains. -/
def closeTag : List Char → Option (List Char)
  | [] => none
  | '>' :: rest => some rest
  | _ :: rest => closeTag rest

/-- Scan for the first complete opening tag `<xy[^>]*>` (tag letters `x`,
`y`, case-insensitively) and return the input after its `>`. -/
def findTag (x y : Char) : List Char → Option (List Char)
  | [] => none
  | c :: rest =>
    if c = '<' then
      match rest with
      | a :: b :: rest2 =>
        if a.toLower = x && b.toLower = y then
          match closeTag rest2 with
          | some r => some r
          | none => findTag x y rest
        else findTag x y rest
      | _ => findTag x y rest
    else findTag x y rest

/-- Does the input start with the literal closing tag `</xy>`
(case-insensitive letters)? -/
def isClose (x y : Char) : List Char → Bool
  | '<' :: '/' :: a :: b :: '>' :: _ => a.toLower = x && b.toLower = y
  | _ => false

/-- Split at the first occurrence of the closing tag `</xy>`: the lazy
group content before it and the input after it. -/
def splitAtClose (x y : Char) : List Char → Option (List Char × List Char)
  | [] => none
  | c :: rest =>
    if isClose x y (c :: rest) then some ([], rest.drop 4)
    else
      match splitAtClose x y rest with
      | some p => some (c :: p.1, p.2)
      | none => none

/-- Group 1 of the first `TR_RX` search match
(`<tr[^>]*>([\s\S]*?)</tr>`): the content between the first complete
`<tr…>` tag and the first `</tr>` after it. -/
def first_tr_content (html : List Char) : Option (List Char) :=
  match findTag 't' 'r' html with
  | none => none
  | some rest => (splitAtClose 't' 'r' rest).map Prod.fst

/-- `TD_RX.finditer` (`<td[^>]*>(.*?)</td>`, DOTALL): the raw group-1
contents of the successive non-overlapping matches.  Fuel-driven; the
fuel `l.length` never runs out because every iteration consumes the
`<td…>` and `</td>` markup. -/
def tdRawsF : Nat → List Char → List (List Char)
  | 0, _ => []
  | fuel + 1, l =>
    match findTag 't' 'd' l with
    | none => []
    | some rest =>
      match splitAtClose 't' 'd' rest with
      | none => []
      | some p => p.1 :: tdRawsF fuel p.2

/-- All raw `<td>` contents of a row. -/
def tdRaws (l : List Char) : List (List Char) := tdRawsF l.length l

/-- `re.sub(r"<[^>]+>", "", txt)`: delete every `<`-to-first-`>` span
holding at least one character.  Fuel-driven like `tdRawsF`. -/
def stripTagsF : Nat → List Char → List Char
  | 0, l => l
  | _ + 1, [] => []
  | fuel + 1, c :: rest =>
    if c = '<' then
      match rest with
      | '>' :: _ => '<' :: stripTagsF fuel rest
      | _ =>
        match closeTag rest with
        | some after => stripTagsF fuel after
        | none => '<' :: rest
    else c :: stripTagsF fuel rest

/-- Tag deletion on a cell's raw content. -/
def stripTags (l : List Char) : List Char := stripTagsF l.length l

/-- Python's `\s` (the characters the source can meet after the NBSP
replacement are ASCII; the Unicode space characters are included for
faithfulness to `re`'s Unicode mode). -/
def pyIsSpace (c : Char) : Bool :=
  c == ' ' || c == '\t' || c == '\n' || c == '\r' || c == '\x0b' || c == '\x0c' ||
  c == '\u001c' || c == '\u001d' || c == '\u001e' || c == '\u001f' || c == '\u0085' ||
  c == '\u00a0' || c == '\u1680' || ('\u2000' ≤ c && c ≤ '\u200a') ||
  c == '\u2028' || c == '\u2029' || c == '\u202f' || c == '\u205f' || c == '\u3000'

/-- `re.sub(r"\s+", " ", …)`: every maximal whitespace run becomes one
space.  The flag records whether the previous character was whitespace. -/
def collapseWsAux : Bool → List Char → List Char
  | _, [] => []
  | inSpace, c :: rest =>
    if pyIsSpace c then
      if inSpace then collapseWsAux true rest
      else ' ' :: collapseWsAux true rest
    else c :: collapseWsAux false rest

/-- Whitespace-run collapsing. -/
def collapseWs (l : List Char) : List Char := collapseWsAux false l

/-- Python `str.strip()`. -/
def pyStrip (l : List Char) : List Char :=
  ((l.dropWhile pyIsSpace).reverse.dropWhile pyIsSpace).reverse

/-- The cleaning applied to each cell (app.py lines 108-109): delete
tags, replace NBSP by a space, collapse whitespace runs, trim. -/
def cleanCell (txt : List Char) : List Char :=
  pyStrip (collapseWs ((stripTags txt).map (fun c => if c = '\u00a0' then ' ' else c)))

/-- `ensure_has_tds` (app.py lines 97-98): search for
`<tr[^>]*>[\s\S]*?<td[^>]*>`. -/
def ensure_has_tds (html : String) : Bool :=
  match findTag 't' 'r' html.data with
  | some rest => (findTag 't' 'd' rest).isSome
  | none => false

/-- `extract_first_tr_values` (app.py lines 100-112): the cleaned,
non-empty cell texts of the first `<tr>…</tr>` region, in order. -/
def extract_first_tr_values (html : String) : List String :=
  match first_tr_content html.data with
  | none => []
  | some content =>
    (((tdRaws content).map cleanCell).filter (fun c => !c.isEmpty)).map
      (fun c => String.mk c)

example : ensure_has_tds "<tr><td>A</td></tr>" = true := by decide
example : ensure_has_tds "<TR class=x><TD>A</TD></TR>" = true := by decide
example : ensure_has_tds "<table></table>" = false := by decide
example : ensure_has_tds "<tr></tr>" = false := by decide
example : ensure_has_tds "<td>A</td>" = false := by decide
example :
    extract_first_tr_values "<tr><td>A</td><td>B</td><td>C</td><td>D</td><td>E</td></tr>" =
      ["A", "B", "C", "D", "E"] := by decide
example : extract_first_tr_values "<tr><td> </td><td><b>X</b> Y</td></tr>" = ["X Y"] := by
  decide
example : extract_first_tr_values "no rows here" = [] := by decide
example : extract_first_tr_values "<tr><td></td></tr>" = [] := by decide

/-! ## Record mapper (`map_values`, app.py lines 114-128)

A Python dict built from string keys in insertion order is modelled as an
association list in that order. -/

/-- `map_values`: with five or more values, the first five become the
named fields `{nombre, rut, genero, direccion, comuna}`; with fewer, the
positional `campo1…campoN` fallback (`enumerate`). -/
def map_values (values : List String) : List (String × String) :=
  if 5 ≤ values.length then
    match values with
    | v0 :: v1 :: v2 :: v3 :: v4 :: _ =>
      [("nombre", v0), ("rut", v1), ("genero", v2), ("direccion", v3), ("comuna", v4)]
    | _ => []
  else values.enum.map (fun iv => ("campo" ++ toString (iv.1 + 1), iv.2))

/-! ## Endpoint handlers (`get_rut`, `get_rut_raw`, app.py lines 135-213)

The handlers are embedded as pure functions of the request data and the
behaviour of the two fetch tiers:

* the direct tier (`fetch_via_requests`) either produces a response
  (status code and body, `r.text or ""` folded into the body string) or
  raises `requests.RequestException` (connection error / timeout);
* the browser tier (`fetch_via_playwright`) produces an HTML string.

The second component of the result records whether the browser tier was
invoked (i.e. whether control reached line 169).  `HTTPException`s are
the `httpError` constructor; they are not `requests.RequestException`s,
so the `except` clause at line 164 does not catch them. -/

/-- Outcome of `fetch_via_requests`: the response, or a transport-level
`requests.RequestException`. -/
structure DirectResult where
  status : Nat
  body : String
deriving DecidableEq

/-- A direct-tier fetch either returns a response or raises. -/
inductive DirectOutcome where
  | response (r : DirectResult)
  | transportError
deriving DecidableEq

/-- Body of the direct response, `""` for a transport error. -/
def directBody : DirectOutcome → String
  | DirectOutcome.response r => r.body
  | DirectOutcome.transportError => ""

/-- What `GET /rut/{id}` sends back: the success payload
`{source, rut_consultado, columnas, data, raw}`, an `HTTPException`, or
the `inspect` diagnostic payload `{source, rut_consultado, message,
snippet}`. -/
inductive RutResponse where
  | success (source rut_consultado : String) (columnas : Nat)
      (data : List (String × String)) (raw : List String)
  | httpError (statusCode : Nat) (detail : String)
  | diagnostic (source rut_consultado message snippet : String)
deriving DecidableEq

/-- `RUT_URL.format(rut=formatted)` (app.py line 11). -/
def RUT_URL (rut : String) : String := "https://r.rutificador.co/pr/" ++ rut

/-- Lines 173-194 of `get_rut`: handling of the browser tier's HTML. -/
def browserPhase (url formatted : String) (inspect : Bool) (html : String) :
    RutResponse :=
  if !ensure_has_tds html then
    if inspect then
      RutResponse.diagnostic url formatted
        "No se detectaron <td> incluso con Playwright." (html.take 1200)
    else
      RutResponse.httpError 400
        "No se encontraron filas <tr> con columnas <td> en la respuesta"
  else
    let vals := extract_first_tr_values html
    if vals.isEmpty then RutResponse.httpError 400 "La fila no contiene columnas <td>"
    else RutResponse.success url formatted vals.length (map_values vals) vals

/-- `get_rut` (app.py lines 135-194).  Returns the response plus a flag
telling whether the browser tier was invoked. -/
def get_rut (rut : String) (inspect : Bool) (direct : DirectOutcome)
    (browserHtml : String) : RutResponse × Bool :=
  match format_rut_lenient rut with
  | none => (RutResponse.httpError 400 "RUT inválido", false)
  | some formatted =>
    let url := RUT_URL formatted
    let directFinal : Option RutResponse :=
      match direct with
      | DirectOutcome.transportError => none
      | DirectOutcome.response r =>
        if r.status != 403 && ensure_has_tds r.body then
          let vals := extract_first_tr_values r.body
          if vals.isEmpty then
            some (RutResponse.httpError 400 "No se encontraron columnas <td> válidas")
          else
            some (RutResponse.success url formatted vals.length (map_values vals) vals)
        else none
    match directFinal with
    | some resp => (resp, false)
    | none => (browserPhase url formatted inspect browserHtml, true)

/-- What `GET /rut/{id}/raw` sends back. -/
inductive RawResponse where
  | payload (status : Nat) (source html : String)
  | httpError (statusCode : Nat) (detail : String)
deriving DecidableEq

/-- `get_rut_raw` (app.py lines 196-213), with the browser-invocation
flag.  Its direct tier is accepted when the status is not 403 and the
body is non-empty (`html` truthiness) — not the `ensure_has_tds` check of
`get_rut`. -/
def get_rut_raw (rut : String) (direct : DirectOutcome) (browserHtml : String) :
    RawResponse × Bool :=
  match format_rut_lenient rut with
  | none => (RawResponse.httpError 400 "RUT inválido", false)
  | some formatted =>
    let url := RUT_URL formatted
    match direct with
    | DirectOutcome.response r =>
      if r.status != 403 && !r.body.isEmpty then
        (RawResponse.payload r.status url (r.body.take 20000), false)
      else (RawResponse.payload 200 url (browserHtml.take 20000), true)
    | DirectOutcome.transportError =>
      (RawResponse.payload 200 url (browserHtml.take 20000), true)

example :
    map_values ["A", "B", "C", "D", "E"] =
      [("nombre", "A"), ("rut", "B"), ("genero", "C"), ("direccion", "D"),
       ("comuna", "E")] := by decide
example : map_values ["x", "y"] = [("campo1", "x"), ("campo2", "y")] := by decide
example : map_values [] = [] := by decide
example :
    get_rut "15421741K" false
      (DirectOutcome.response ⟨403, ""⟩) "<tr><td>Z</td></tr>" =
      (RutResponse.success "https://r.rutificador.co/pr/15.421.741-K" "15.421.741-K"
        1 [("campo1", "Z")] ["Z"], true) := by decide
example :
    (get_rut "15421741K" false
      (DirectOutcome.response ⟨200, "<tr><td>Z</td></tr>"⟩) "").2 = false := by decide
example :
    (get_rut_raw "15421741K" (DirectOutcome.response ⟨200, "<p>x</p>"⟩) "").2 =
      false := by decide

example : format_rut_lenient "15421741K" = some "15.421.741-K" := by decide
example : format_rut_lenient "15.421.741-K" = some "15.421.741-K" := by decide
example : format_rut_lenient "15421741-K" = some "15.421.741-K" := by decide
example : format_rut_lenient "1" = none := by decide
example : format_rut_lenient "" = none := by decide
example : format_rut_lenient "1k1" = some "1k-1" := by decide
example : matchesCanonical "15.421.741-K" = true := by decide
example : matchesCanonical "1k-1" = false := by decide
example : matchesCanonical "1-5" = true := by decide

/-! ## Helper lemmas -/

/-- With at least five values, `map_values` yields exactly the five named
fields. -/
theorem map_values_length_of_five_le (l : List String) (h : 5 ≤ l.length) :
    (map_values l).length = 5 := by
  match l, h with
  | [], h | [a], h | [a, b], h | [a, b, c], h | [a, b, c, d], h => simp at h
  | a :: b :: c :: d :: e :: rest, h =>
    unfold map_values
    rw [if_pos h]
    rfl

/-! ## Claims -/

/-- C7: `format_rut_lenient` maps `"15421741K"`, `"15.421.741-K"` and
`"15421741-K"` to the same canonical string `"15.421.741-K"`. -/
theorem format_rut_lenient_separator_styles :
    format_rut_lenient "15421741K" = some "15.421.741-K" ∧
    format_rut_lenient "15.421.741-K" = some "15.421.741-K" ∧
    format_rut_lenient "15421741-K" = some "15.421.741-K" := by
  refine ⟨by decide, by decide, by decide⟩

/-- C9: extracting from one row of five cells gives the five cell texts
in order, and mapping them gives the five named fields. -/
theorem extract_five_cells_then_map :
    extract_first_tr_values
        "<tr><td>A</td><td>B</td><td>C</td><td>D</td><td>E</td></tr>" =
      ["A", "B", "C", "D", "E"] ∧
    map_values ["A", "B", "C", "D", "E"] =
      [("nombre", "A"), ("rut", "B"), ("genero", "C"), ("direccion", "D"),
       ("comuna", "E")] := by
  refine ⟨by decide, by decide⟩

/-- C1: when the direct tier returns a response, the browser tier is
invoked iff the status is 403 or the body has no `<tr>…<td>` sequence;
in particular a non-403 response with table markup whose extraction
yields zero cells does not invoke the browser tier. -/
theorem get_rut_escalation_iff (rut f : String)
    (hf : format_rut_lenient rut = some f) (inspect : Bool)
    (r : DirectResult) (b : String) :
    ((get_rut rut inspect (DirectOutcome.response r) b).2 = true ↔
      (r.status = 403 ∨ ensure_has_tds r.body = false)) ∧
    (r.status ≠ 403 → ensure_has_tds r.body = true →
      extract_first_tr_values r.body = [] →
      (get_rut rut inspect (DirectOutcome.response r) b).2 = false) := by
  have hmain : (get_rut rut inspect (DirectOutcome.response r) b).2 =
      !(r.status != 403 && ensure_has_tds r.body) := by
    unfold get_rut
    rw [hf]
    by_cases hc : (r.status != 403 && ensure_has_tds r.body) = true
    · rw [hc]
      cases hv : (extract_first_tr_values r.body).isEmpty <;> simp [hc, hv]
    · simp only [Bool.not_eq_true] at hc
      simp [hc]
  constructor
  · rw [hmain]
    by_cases h403 : r.status = 403
    · simp [h403]
    · by_cases htds : ensure_has_tds r.body <;> simp [h403, htds]
  · intro h1 h2 _
    rw [hmain, h2]
    simp [h1]

/-- Witness for C1 at a concrete blocked response. -/
theorem get_rut_escalation_iff_witness :
    (get_rut "15421741K" false (DirectOutcome.response ⟨403, ""⟩) "").2 = true :=
  (get_rut_escalation_iff "15421741K" "15.421.741-K" (by decide) false ⟨403, ""⟩ "").1.mpr
    (Or.inl rfl)

/-- C2: a transport-level exception from the direct tier is never
propagated: the handler's result is exactly the browser tier's handling
of the rendered HTML, with the browser tier invoked. -/
theorem get_rut_transport_error_escalates (rut f : String)
    (hf : format_rut_lenient rut = some f) (inspect : Bool) (b : String) :
    get_rut rut inspect DirectOutcome.transportError b =
      (browserPhase (RUT_URL f) f inspect b, true) := by
  unfold get_rut
  rw [hf]

/-- Witness for C2 at a concrete request. -/
theorem get_rut_transport_error_escalates_witness :
    get_rut "15421741K" false DirectOutcome.transportError "<tr><td>Z</td></tr>" =
      (browserPhase (RUT_URL "15.421.741-K") "15.421.741-K" false
        "<tr><td>Z</td></tr>", true) :=
  get_rut_transport_error_escalates "15421741K" "15.421.741-K" (by decide) false
    "<tr><td>Z</td></tr>"

/-- C8: `map_values` takes the first five entries as the named record
(later entries dropped), falls back to `campo1…campoN` below five
entries, and maps the empty list to the empty record. -/
theorem map_values_positional_spec (values : List String) :
    map_values values =
      (if 5 ≤ values.length then
        [("nombre", values.getD 0 ""), ("rut", values.getD 1 ""),
         ("genero", values.getD 2 ""), ("direccion", values.getD 3 ""),
         ("comuna", values.getD 4 "")]
      else
        (List.range values.length).map
          (fun i => ("campo" ++ toString (i + 1), values.getD i ""))) ∧
    map_values ([] : List String) = [] := by
  refine ⟨?_, by decide⟩
  match values with
  | [] => rfl
  | [a] => rfl
  | [a, b] => rfl
  | [a, b, c] => rfl
  | [a, b, c, d] => rfl
  | a :: b :: c :: d :: e :: rest =>
    have h5 : 5 ≤ (a :: b :: c :: d :: e :: rest).length := by
      simp [List.length]
    unfold map_values
    rw [if_pos h5, if_pos h5]
    rfl

/-- Unfolding of `get_rut` under a successful normalization: the direct
tier is final iff its status is not 403, it has table markup and a
non-empty extraction; otherwise the browser phase runs. -/
theorem get_rut_eq_some (rut f : String) (hf : format_rut_lenient rut = some f)
    (inspect : Bool) (d : DirectOutcome) (b : String) :
    get_rut rut inspect d b =
      match d with
      | DirectOutcome.transportError => (browserPhase (RUT_URL f) f inspect b, true)
      | DirectOutcome.response r =>
        if r.status != 403 && ensure_has_tds r.body then
          if (extract_first_tr_values r.body).isEmpty then
            (RutResponse.httpError 400 "No se encontraron columnas <td> válidas", false)
          else
            (RutResponse.success (RUT_URL f) f (extract_first_tr_values r.body).length
              (map_values (extract_first_tr_values r.body))
              (extract_first_tr_values r.body), false)
        else (browserPhase (RUT_URL f) f inspect b, true) := by
  unfold get_rut
  rw [hf]
  cases d with
  | transportError => rfl
  | response r =>
    by_cases hacc : (r.status != 403 && ensure_has_tds r.body) = true
    · by_cases hv : (extract_first_tr_values r.body).isEmpty <;>
        simp only [hacc, hv, if_true, if_false, Bool.false_eq_true]
    · simp only [Bool.not_eq_true] at hacc
      simp only [hacc, Bool.false_eq_true, if_false]

/-- Unfolding of `browserPhase`. -/
theorem browserPhase_eq (url formatted : String) (inspect : Bool) (html : String) :
    browserPhase url formatted inspect html =
      if ensure_has_tds html then
        if (extract_first_tr_values html).isEmpty then
          RutResponse.httpError 400 "La fila no contiene columnas <td>"
        else
          RutResponse.success url formatted (extract_first_tr_values html).length
            (map_values (extract_first_tr_values html)) (extract_first_tr_values html)
      else if inspect then
        RutResponse.diagnostic url formatted
          "No se detectaron <td> incluso con Playwright." (html.take 1200)
      else
        RutResponse.httpError 400
          "No se encontraron filas <tr> con columnas <td> en la respuesta" := by
  unfold browserPhase
  by_cases htds : ensure_has_tds html <;>
    simp only [htds, Bool.not_true, Bool.not_false, if_true, if_false,
      Bool.false_eq_true, Bool.true_eq_false]

/-- C10: every success payload of `get_rut` has `columnas` equal to the
length of the full extracted cell list, `raw` equal to that full list
(the extraction of the direct body when the browser tier was not
invoked, of the browser HTML when it was), `data` its mapping, and at
most the five named fields even when more cells were extracted. -/
theorem get_rut_success_shape (rut : String) (inspect : Bool)
    (d : DirectOutcome) (b s rc : String) (cols : Nat)
    (data : List (String × String)) (raw : List String)
    (h : (get_rut rut inspect d b).1 = RutResponse.success s rc cols data raw) :
    cols = raw.length ∧ data = map_values raw ∧
    ((get_rut rut inspect d b).2 = false →
      raw = extract_first_tr_values (directBody d)) ∧
    ((get_rut rut inspect d b).2 = true → raw = extract_first_tr_values b) ∧
    (5 < cols → data.length = 5 ∧ 5 < raw.length) := by
  have hnone : format_rut_lenient rut ≠ none := by
    intro hf
    unfold get_rut at h
    rw [hf] at h
    exact absurd h (by simp)
  obtain ⟨f, hf⟩ : ∃ f, format_rut_lenient rut = some f := by
    cases hfv : format_rut_lenient rut with
    | none => exact absurd hfv hnone
    | some f => exact ⟨f, rfl⟩
  rw [get_rut_eq_some rut f hf inspect d b] at h ⊢
  have hbrowser : browserPhase (RUT_URL f) f inspect b =
        RutResponse.success s rc cols data raw →
      cols = raw.length ∧ data = map_values raw ∧ raw = extract_first_tr_values b := by
    intro hb
    rw [browserPhase_eq] at hb
    by_cases htds : ensure_has_tds b
    · rw [if_pos htds] at hb
      by_cases hv : (extract_first_tr_values b).isEmpty
      · rw [if_pos hv] at hb
        exact absurd hb (by simp)
      · rw [if_neg hv] at hb
        injection hb with h1 h2 h3 h4 h5
        subst h5 h4 h3
        exact ⟨rfl, rfl, rfl⟩
    · rw [if_neg htds] at hb
      cases inspect <;> simp at hb
  cases d with
  | transportError =>
    simp only at h ⊢
    obtain ⟨h1, h2, h3⟩ := hbrowser h
    refine ⟨h1, h2, by simp, fun _ => h3, fun hc => ⟨?_, by omega⟩⟩
    rw [h2]
    exact map_values_length_of_five_le raw (by omega)
  | response r =>
    simp only at h ⊢
    by_cases hacc : (r.status != 403 && ensure_has_tds r.body) = true
    · rw [if_pos hacc] at h ⊢
      by_cases hv : (extract_first_tr_values r.body).isEmpty
      · rw [if_pos hv] at h
        exact absurd h (by simp)
      · rw [if_neg hv] at h ⊢
        injection h with h1 h2 h3 h4 h5
        subst h5 h4 h3
        refine ⟨rfl, rfl, fun _ => rfl, by simp, fun hc => ⟨?_, by omega⟩⟩
        exact map_values_length_of_five_le _ (by omega)
    · rw [if_neg hacc] at h ⊢
      simp only at h ⊢
      obtain ⟨h1, h2, h3⟩ := hbrowser h
      refine ⟨h1, h2, by simp, fun _ => h3, fun hc => ⟨?_, by omega⟩⟩
      rw [h2]
      exact map_values_length_of_five_le raw (by omega)


/-- Witness for C10: a direct response with six cells yields
`columnas = 6`, the full six-element `raw`, and five named fields. -/
theorem get_rut_success_shape_witness :
    6 = (["A", "B", "C", "D", "E", "F"] : List String).length ∧
    ([("nombre", "A"), ("rut", "B"), ("genero", "C"), ("direccion", "D"),
      ("comuna", "E")] : List (String × String)) =
        map_values ["A", "B", "C", "D", "E", "F"] ∧
    ((get_rut "15421741K" false
        (DirectOutcome.response
          ⟨200, "<tr><td>A</td><td>B</td><td>C</td><td>D</td><td>E</td><td>F</td></tr>"⟩)
        "").2 = false →
      ["A", "B", "C", "D", "E", "F"] =
        extract_first_tr_values
          (directBody (DirectOutcome.response
            ⟨200, "<tr><td>A</td><td>B</td><td>C</td><td>D</td><td>E</td><td>F</td></tr>"⟩))) ∧
    ((get_rut "15421741K" false
        (DirectOutcome.response
          ⟨200, "<tr><td>A</td><td>B</td><td>C</td><td>D</td><td>E</td><td>F</td></tr>"⟩)
        "").2 = true →
      ["A", "B", "C", "D", "E", "F"] = extract_first_tr_values "") ∧
    (5 < 6 →
      ([("nombre", "A"), ("rut", "B"), ("genero", "C"), ("direccion", "D"),
        ("comuna", "E")] : List (String × String)).length = 5 ∧
      5 < (["A", "B", "C", "D", "E", "F"] : List String).length) :=
  get_rut_success_shape "15421741K" false
    (DirectOutcome.response
      ⟨200, "<tr><td>A</td><td>B</td><td>C</td><td>D</td><td>E</td><td>F</td></tr>"⟩)
    "" "https://r.rutificador.co/pr/15.421.741-K" "15.421.741-K" 6
    [("nombre", "A"), ("rut", "B"), ("genero", "C"), ("direccion", "D"),
     ("comuna", "E")]
    ["A", "B", "C", "D", "E", "F"] (by decide)

/-- C3 counterexample: with `inspect=true`, after a 403 direct response
both tiers run and the browser HTML yields no non-empty cells — the
final HTML makes extraction fail — yet the endpoint raises the 400
error instead of returning the diagnostic payload.  (The same happens
without escalation: a 200 direct response with body
`"<tr><td> </td></tr>"` raises the line-155 error under `inspect=true`.) -/
theorem inspect_no_diagnostic_on_empty_cells :
    (get_rut "15421741K" true (DirectOutcome.response ⟨403, ""⟩)
        "<tr><td> </td></tr>").1 =
      RutResponse.httpError 400 "La fila no contiene columnas <td>" ∧
    (get_rut "15421741K" true (DirectOutcome.response ⟨403, ""⟩)
        "<tr><td> </td></tr>").2 = true ∧
    extract_first_tr_values "<tr><td> </td></tr>" = [] ∧
    (get_rut "15421741K" true
        (DirectOutcome.response ⟨200, "<tr><td> </td></tr>"⟩) "").1 =
      RutResponse.httpError 400 "No se encontraron columnas <td> válidas" := by
  refine ⟨by decide, by decide, by decide, by decide⟩

/-- C3 amended: with `inspect=true`, the diagnostic payload is returned
exactly when the browser tier was invoked and its HTML has no
`<tr>…<td>` markup — and then its fields are `source`, the normalized
identifier, the fixed message, and the first 1200 characters of the
browser HTML; any extraction failure on final HTML that does have
markup (zero non-empty cells, in either tier) raises a 400 error even
with `inspect=true`. -/
theorem inspect_diagnostic_on_browser_no_tds (rut f : String)
    (hf : format_rut_lenient rut = some f) (d : DirectOutcome) (b : String) :
    ((get_rut rut true d b).2 = true → ensure_has_tds b = false →
      (get_rut rut true d b).1 =
        RutResponse.diagnostic (RUT_URL f) f
          "No se detectaron <td> incluso con Playwright." (b.take 1200)) ∧
    (∀ s2 r2 m2 sn2,
      (get_rut rut true d b).1 = RutResponse.diagnostic s2 r2 m2 sn2 →
      (get_rut rut true d b).2 = true ∧ ensure_has_tds b = false ∧
      s2 = RUT_URL f ∧ r2 = f ∧
      m2 = "No se detectaron <td> incluso con Playwright." ∧
      sn2 = b.take 1200) ∧
    ((get_rut rut true d b).2 = true → ensure_has_tds b = true →
      extract_first_tr_values b = [] →
      (get_rut rut true d b).1 =
        RutResponse.httpError 400 "La fila no contiene columnas <td>") ∧
    (∀ r, d = DirectOutcome.response r → r.status ≠ 403 →
      ensure_has_tds r.body = true → extract_first_tr_values r.body = [] →
      (get_rut rut true d b).1 =
        RutResponse.httpError 400 "No se encontraron columnas <td> válidas") := by
  rw [get_rut_eq_some rut f hf true d b]
  cases d with
  | transportError =>
    simp only
    rw [browserPhase_eq]
    by_cases htds : ensure_has_tds b
    · rw [if_pos htds]
      by_cases hv : (extract_first_tr_values b).isEmpty
      · rw [if_pos hv]
        refine ⟨?_, ?_, ?_, ?_⟩
        · intro _ hb
          exact absurd htds (by simp [hb])
        · intro s2 r2 m2 sn2 hcontra
          exact absurd hcontra (by simp)
        · intro _ _ _
          rfl
        · intro r hr
          exact absurd hr (by simp)
      · rw [if_neg hv]
        refine ⟨?_, ?_, ?_, ?_⟩
        · intro _ hb
          exact absurd htds (by simp [hb])
        · intro s2 r2 m2 sn2 hcontra
          exact absurd hcontra (by simp)
        · intro _ _ hemp
          rw [hemp] at hv
          exact absurd rfl hv
        · intro r hr
          exact absurd hr (by simp)
    · rw [if_neg htds, if_pos rfl]
      have htds_f : ensure_has_tds b = false := by simpa using htds
      refine ⟨?_, ?_, ?_, ?_⟩
      · intro _ _
        rfl
      · intro s2 r2 m2 sn2 heq
        injection heq with e1 e2 e3 e4
        exact ⟨by trivial, htds_f, e1.symm, e2.symm, e3.symm, e4.symm⟩
      · intro _ hb _
        exact absurd hb (by simp [htds_f])
      · intro r hr
        exact absurd hr (by simp)
  | response r =>
    simp only
    by_cases hacc : (r.status != 403 && ensure_has_tds r.body) = true
    · rw [if_pos hacc]
      by_cases hv : (extract_first_tr_values r.body).isEmpty
      · rw [if_pos hv]
        refine ⟨?_, ?_, ?_, ?_⟩
        · intro h2
          exact absurd h2 (by simp)
        · intro s2 r2 m2 sn2 hcontra
          exact absurd hcontra (by simp)
        · intro h2
          exact absurd h2 (by simp)
        · intro r2 hr2 _ _ _
          rfl
      · rw [if_neg hv]
        refine ⟨?_, ?_, ?_, ?_⟩
        · intro h2
          exact absurd h2 (by simp)
        · intro s2 r2 m2 sn2 hcontra
          exact absurd hcontra (by simp)
        · intro h2
          exact absurd h2 (by simp)
        · intro r2 hr2 _ _ hemp
          injection hr2 with hr2e
          subst hr2e
          rw [hemp] at hv
          exact absurd rfl hv
    · rw [if_neg hacc, browserPhase_eq]
      have hacc2 : ∀ r2, DirectOutcome.response r = DirectOutcome.response r2 →
          r2.status ≠ 403 → ensure_has_tds r2.body = true → False := by
        intro r2 hr2 h403 hmk
        injection hr2 with hr2e
        subst hr2e
        refine hacc ?_
        rw [hmk, Bool.and_true]
        exact bne_iff_ne.mpr h403
      by_cases htds : ensure_has_tds b
      · rw [if_pos htds]
        by_cases hv : (extract_first_tr_values b).isEmpty
        · rw [if_pos hv]
          refine ⟨?_, ?_, ?_, ?_⟩
          · intro _ hb
            exact absurd htds (by simp [hb])
          · intro s2 r2 m2 sn2 hcontra
            exact absurd hcontra (by simp)
          · intro _ _ _
            rfl
          · intro r2 hr2 h403 hmk _
            exact absurd (hacc2 r2 hr2 h403 hmk) not_false
        · rw [if_neg hv]
          refine ⟨?_, ?_, ?_, ?_⟩
          · intro _ hb
            exact absurd htds (by simp [hb])
          · intro s2 r2 m2 sn2 hcontra
            exact absurd hcontra (by simp)
          · intro _ _ hemp
            rw [hemp] at hv
            exact absurd rfl hv
          · intro r2 hr2 h403 hmk _
            exact absurd (hacc2 r2 hr2 h403 hmk) not_false
      · rw [if_neg htds, if_pos rfl]
        have htds_f : ensure_has_tds b = false := by simpa using htds
        refine ⟨?_, ?_, ?_, ?_⟩
        · intro _ _
          rfl
        · intro s2 r2 m2 sn2 heq
          injection heq with e1 e2 e3 e4
          exact ⟨by simp, htds_f, e1.symm, e2.symm, e3.symm, e4.symm⟩
        · intro _ hb _
          exact absurd hb (by simp [htds_f])
        · intro r2 hr2 h403 hmk _
          exact absurd (hacc2 r2 hr2 h403 hmk) not_false

/-- Witness for the amended C3 at a concrete challenge page. -/
theorem inspect_diagnostic_on_browser_no_tds_witness :
    (get_rut "15421741K" true (DirectOutcome.response ⟨403, ""⟩)
        "<p>challenge</p>").1 =
      RutResponse.diagnostic (RUT_URL "15.421.741-K") "15.421.741-K"
        "No se detectaron <td> incluso con Playwright."
        ("<p>challenge</p>".take 1200) :=
  (inspect_diagnostic_on_browser_no_tds "15421741K" "15.421.741-K" (by decide)
    (DirectOutcome.response ⟨403, ""⟩) "<p>challenge</p>").1 (by decide)
    (by decide)

/-- C4 counterexample: the escalation condition of `/rut/{id}/raw` is
not the one of `/rut/{id}` — a 200 direct response with a non-empty body
but no table markup sends `/rut/{id}` to the browser tier while
`/rut/{id}/raw` accepts it. -/
theorem get_rut_raw_escalation_differs :
    (get_rut "15421741K" false
        (DirectOutcome.response ⟨200, "<p>hola</p>"⟩) "").2 = true ∧
    (get_rut_raw "15421741K"
        (DirectOutcome.response ⟨200, "<p>hola</p>"⟩) "").2 = false := by
  refine ⟨by decide, by decide⟩

/-- `get_rut` on a failed normalization. -/
theorem get_rut_eq_none (rut : String) (hf : format_rut_lenient rut = none)
    (inspect : Bool) (d : DirectOutcome) (b : String) :
    get_rut rut inspect d b = (RutResponse.httpError 400 "RUT inválido", false) := by
  unfold get_rut
  rw [hf]

/-- `get_rut_raw` on a failed normalization. -/
theorem get_rut_raw_eq_none (rut : String) (hf : format_rut_lenient rut = none)
    (d : DirectOutcome) (b : String) :
    get_rut_raw rut d b = (RawResponse.httpError 400 "RUT inválido", false) := by
  unfold get_rut_raw
  rw [hf]

/-- Unfolding of `get_rut_raw` under a successful normalization. -/
theorem get_rut_raw_eq_some (rut f : String)
    (hf : format_rut_lenient rut = some f) (d : DirectOutcome) (b : String) :
    get_rut_raw rut d b =
      match d with
      | DirectOutcome.response r =>
        if r.status != 403 && !r.body.isEmpty then
          (RawResponse.payload r.status (RUT_URL f) (r.body.take 20000), false)
        else (RawResponse.payload 200 (RUT_URL f) (b.take 20000), true)
      | DirectOutcome.transportError =>
        (RawResponse.payload 200 (RUT_URL f) (b.take 20000), true) := by
  unfold get_rut_raw
  rw [hf]

/-- The browser phase never reports the normalization error. -/
theorem browserPhase_ne_invalid (url formatted : String) (inspect : Bool)
    (html : String) :
    browserPhase url formatted inspect html ≠
      RutResponse.httpError 400 "RUT inválido" := by
  rw [browserPhase_eq]
  by_cases htds : ensure_has_tds html
  · rw [if_pos htds]
    by_cases hv : (extract_first_tr_values html).isEmpty
    · rw [if_pos hv]
      intro hcontra
      injection hcontra with h1 h2
      exact absurd h2 (by decide)
    · rw [if_neg hv]
      intro hcontra
      exact absurd hcontra (by simp)
  · rw [if_neg htds]
    by_cases hi : inspect
    · rw [if_pos hi]
      intro hcontra
      exact absurd hcontra (by simp)
    · rw [if_neg hi]
      intro hcontra
      injection hcontra with h1 h2
      exact absurd h2 (by decide)

/-- Under a successful normalization, `get_rut` never reports the
normalization error. -/
theorem get_rut_ne_invalid (rut f : String)
    (hf : format_rut_lenient rut = some f) (inspect : Bool)
    (d : DirectOutcome) (b : String) :
    (get_rut rut inspect d b).1 ≠ RutResponse.httpError 400 "RUT inválido" := by
  rw [get_rut_eq_some rut f hf inspect d b]
  cases d with
  | transportError => exact browserPhase_ne_invalid _ _ _ _
  | response r =>
    simp only
    by_cases hacc : (r.status != 403 && ensure_has_tds r.body) = true
    · rw [if_pos hacc]
      by_cases hv : (extract_first_tr_values r.body).isEmpty
      · rw [if_pos hv]
        intro hcontra
        injection hcontra with h1 h2
        exact absurd h2 (by decide)
      · rw [if_neg hv]
        intro hcontra
        exact absurd hcontra (by simp)
    · rw [if_neg hacc]
      exact browserPhase_ne_invalid _ _ _ _


/-- C4 amended: `/rut/{id}/raw` shares the normalizer with `/rut/{id}`
(the 400 `RUT inválido` failures coincide), but escalates iff the direct
tier raised or returned 403 or an empty body; it returns the raw HTML of
the tier that produced it truncated to 20000 characters, with the
originating status code (200 for the browser tier). -/
theorem get_rut_raw_spec (rut : String) (d : DirectOutcome) (b : String) :
    ((get_rut_raw rut d b).1 = RawResponse.httpError 400 "RUT inválido" ↔
      (∀ i, (get_rut rut i d b).1 = RutResponse.httpError 400 "RUT inválido")) ∧
    ((get_rut_raw rut d b).2 = true ↔
      (format_rut_lenient rut ≠ none ∧
        ∀ r, d = DirectOutcome.response r → (r.status = 403 ∨ r.body = ""))) ∧
    (∀ f, format_rut_lenient rut = some f →
      ((get_rut_raw rut d b).2 = true →
        (get_rut_raw rut d b).1 =
          RawResponse.payload 200 (RUT_URL f) (b.take 20000)) ∧
      (∀ r, d = DirectOutcome.response r → (get_rut_raw rut d b).2 = false →
        (get_rut_raw rut d b).1 =
          RawResponse.payload r.status (RUT_URL f) (r.body.take 20000))) := by
  cases hf : format_rut_lenient rut with
  | none =>
    rw [get_rut_raw_eq_none rut hf d b]
    refine ⟨?_, ?_, ?_⟩
    · constructor
      · intro _ i
        rw [get_rut_eq_none rut hf i d b]
      · intro _
        rfl
    · constructor
      · intro hcontra
        exact absurd hcontra (by simp)
      · intro hcontra
        exact (hcontra.1 rfl).elim
    · intro f hsome
      exact absurd hsome (by simp)
  | some f =>
    rw [get_rut_raw_eq_some rut f hf d b]
    have hne : ∀ i, (get_rut rut i d b).1 ≠ RutResponse.httpError 400 "RUT inválido" :=
      fun i => get_rut_ne_invalid rut f hf i d b
    cases d with
    | transportError =>
      refine ⟨?_, ?_, ?_⟩
      · simp only
        constructor
        · intro hcontra
          exact absurd hcontra (by simp)
        · intro hall
          exact absurd (hall false) (hne false)
      · simp only
        constructor
        · intro _
          refine ⟨by simp [hf], ?_⟩
          intro r hr
          exact absurd hr (by simp)
        · intro _
          trivial
      · intro f2 hf2
        injection hf2 with hf2e
        subst hf2e
        refine ⟨fun _ => rfl, ?_⟩
        intro r hr
        exact absurd hr (by simp)
    | response r =>
      simp only
      by_cases hcond : (r.status != 403 && !r.body.isEmpty) = true
      · rw [if_pos hcond]
        simp only [bne_iff_ne, ne_eq, Bool.and_eq_true, Bool.not_eq_true',
          Bool.not_eq_true, ← String.isEmpty_iff] at hcond
        refine ⟨?_, ?_, ?_⟩
        · constructor
          · intro hcontra
            exact absurd hcontra (by simp)
          · intro hall
            exact absurd (hall false) (hne false)
        · constructor
          · intro hcontra
            exact absurd hcontra (by simp)
          · intro hcontra
            rcases hcontra.2 r rfl with h403 | hempty
            · exact absurd h403 hcond.1
            · rw [← String.isEmpty_iff] at hempty
              rw [hempty] at hcond
              exact absurd hcond.2 (by simp)
        · intro f2 hf2
          injection hf2 with hf2e
          subst hf2e
          refine ⟨?_, ?_⟩
          · intro hcontra
            exact absurd hcontra (by simp)
          · intro r2 hr2 _
            injection hr2 with hr2e
            subst hr2e
            rfl
      · rw [if_neg hcond]
        simp only [Bool.and_eq_true, bne_iff_ne, ne_eq, Bool.not_eq_true,
          not_and] at hcond
        refine ⟨?_, ?_, ?_⟩
        · constructor
          · intro hcontra
            exact absurd hcontra (by simp)
          · intro hall
            exact absurd (hall false) (hne false)
        · constructor
          · intro _
            refine ⟨by simp [hf], ?_⟩
            intro r2 hr2
            injection hr2 with hr2e
            subst hr2e
            by_cases h403 : r.status = 403
            · exact Or.inl h403
            · refine Or.inr ?_
              rw [← String.isEmpty_iff]
              have hb2 := hcond h403
              simpa using hb2
          · intro _
            rfl
        · intro f2 hf2
          injection hf2 with hf2e
          subst hf2e
          refine ⟨fun _ => rfl, ?_⟩
          intro r2 hr2 hcontra
          exact absurd hcontra (by simp)

/-- Witness for the amended C4: a transport error sends `/rut/{id}/raw`
to the browser tier, whose HTML is returned with status 200. -/
theorem get_rut_raw_spec_witness :
    (get_rut_raw "15421741K" DirectOutcome.transportError "zzz").1 =
      RawResponse.payload 200 (RUT_URL "15.421.741-K") ("zzz".take 20000) :=
  ((get_rut_raw_spec "15421741K" DirectOutcome.transportError "zzz").2.2
    "15.421.741-K" (by decide)).1 (by decide)

/-! ## Lemmas on the normalizer (for the pattern invariant and
idempotence) -/

/-- A digit is unchanged by `Char.toUpper`. -/
theorem toUpper_of_isDigit (c : Char) (h : c.isDigit = true) : c.toUpper = c := by
  simp only [Char.isDigit, Bool.and_eq_true, decide_eq_true_eq, ge_iff_le] at h
  obtain ⟨h1, h2⟩ := h
  rw [UInt32.le_def, BitVec.le_def] at h1 h2
  unfold Char.toUpper
  have hn : c.toNat ≤ 57 := by
    simpa [Char.toNat, UInt32.toNat] using h2
  rw [if_neg]
  omega

/-- A digit is unchanged by `Char.toLower`. -/
theorem toLower_of_isDigit (c : Char) (h : c.isDigit = true) : c.toLower = c := by
  simp only [Char.isDigit, Bool.and_eq_true, decide_eq_true_eq, ge_iff_le] at h
  obtain ⟨h1, h2⟩ := h
  rw [UInt32.le_def, BitVec.le_def] at h1 h2
  unfold Char.toLower
  have hn : c.toNat ≤ 57 := by
    simpa [Char.toNat, UInt32.toNat] using h2
  rw [if_neg]
  omega

/-- A kept character (digit or `k`) round-trips through
`toUpper ∘ toLower`. -/
theorem toLower_toUpper_of_kept (c : Char) (h : (c.isDigit || c == 'k') = true) :
    c.toUpper.toLower = c := by
  rcases Bool.or_eq_true_iff.mp h with hd | hk
  · rw [toUpper_of_isDigit c hd, toLower_of_isDigit c hd]
  · rw [beq_iff_eq] at hk
    subst hk
    decide

/-- A kept character is unchanged by `Char.toLower`. -/
theorem toLower_of_kept (c : Char) (h : (c.isDigit || c == 'k') = true) :
    c.toLower = c := by
  rcases Bool.or_eq_true_iff.mp h with hd | hk
  · exact toLower_of_isDigit c hd
  · rw [beq_iff_eq] at hk
    subst hk
    decide

/-- The upper-cased check character of a kept character is a digit or
`K`. -/
theorem kept_toUpper_dv (c : Char) (h : (c.isDigit || c == 'k') = true) :
    (c.toUpper.isDigit || c.toUpper == 'K') = true := by
  rcases Bool.or_eq_true_iff.mp h with hd | hk
  · rw [toUpper_of_isDigit c hd, hd, Bool.true_or]
  · rw [beq_iff_eq] at hk
    subst hk
    decide

/-- `format_rut_lenient` fails exactly on inputs with fewer than two kept
characters. -/
theorem format_rut_lenient_eq_none (raw : String)
    (h : (keptChars raw).length < 2) : format_rut_lenient raw = none := by
  by_cases hraw : raw = ""
  · subst hraw
    rfl
  · simp only [format_rut_lenient]
    rw [if_neg hraw, if_pos h]

/-- Unfolded form of a successful `format_rut_lenient`. -/
theorem format_rut_lenient_eq_some (raw : String) (hraw : raw ≠ "")
    (h : ¬ (keptChars raw).length < 2) :
    format_rut_lenient raw =
      some (String.mk
        (dotJoin (((chunksOf3 (keptChars raw).dropLast.reverse).reverse).map
            List.reverse) ++
          ['-', ((keptChars raw).getLastD ' ').toUpper])) := by
  simp only [format_rut_lenient]
  rw [if_neg hraw, if_neg h]

/-- Each group of `chunksOf3` draws its characters from the input. -/
theorem chunksOf3_mem (l : List Char) (g : List Char) (hg : g ∈ chunksOf3 l)
    (c : Char) (hc : c ∈ g) : c ∈ l := by
  induction l using chunksOf3.induct with
  | case1 => simp [chunksOf3] at hg
  | case2 a =>
    simp only [chunksOf3, List.mem_singleton] at hg
    subst hg
    exact hc
  | case3 a b =>
    simp only [chunksOf3, List.mem_singleton] at hg
    subst hg
    exact hc
  | case4 a b c2 rest ih =>
    simp only [chunksOf3, List.mem_cons] at hg
    rcases hg with hg | hg
    · subst hg
      simp only [List.mem_cons] at hc ⊢
      tauto
    · have := ih hg
      simp [List.mem_cons]
      tauto

/-- The groups of `chunksOf3` concatenate back to the input. -/
theorem chunksOf3_join (l : List Char) : (chunksOf3 l).flatten = l := by
  induction l using chunksOf3.induct with
  | case1 => rfl
  | case2 a => rfl
  | case3 a b => rfl
  | case4 a b c rest ih => simp [chunksOf3, ih]

/-- Shape of the reversed group list of `chunksOf3` on a non-empty
input: a head group of one to three characters followed by groups of
exactly three. -/
theorem chunksOf3_reverse_shape (l : List Char) (hne : l ≠ []) :
    ∃ g gs, (chunksOf3 l).reverse = g :: gs ∧ 1 ≤ g.length ∧ g.length ≤ 3 ∧
      (∀ c ∈ g, c ∈ l) ∧ (∀ g2 ∈ gs, g2.length = 3 ∧ ∀ c ∈ g2, c ∈ l) := by
  induction l using chunksOf3.induct with
  | case1 => exact absurd rfl hne
  | case2 a =>
    refine ⟨[a], [], rfl, by simp, by simp, by simp, by simp⟩
  | case3 a b =>
    refine ⟨[a, b], [], rfl, by simp, by simp, by simp, by simp⟩
  | case4 a b c rest ih =>
    by_cases hrest : rest = []
    · subst hrest
      refine ⟨[a, b, c], [], rfl, by simp, by simp, by simp, by simp⟩
    · obtain ⟨g, gs, hrev, h1, h3, hmem, hgs⟩ := ih hrest
      refine ⟨g, gs ++ [[a, b, c]], ?_, h1, h3, ?_, ?_⟩
      · simp only [chunksOf3, List.reverse_cons, hrev]
        rfl
      · intro c2 hc2
        have := hmem c2 hc2
        simp [List.mem_cons]
        tauto
      · intro g2 hg2
        rcases List.mem_append.mp hg2 with hg2 | hg2
        · obtain ⟨hlen, hmem2⟩ := hgs g2 hg2
          refine ⟨hlen, ?_⟩
          intro c2 hc2
          have := hmem2 c2 hc2
          simp [List.mem_cons]
          tauto
        · rw [List.mem_singleton] at hg2
          subst hg2
          refine ⟨rfl, ?_⟩
          intro c2 hc2
          simp only [List.mem_cons] at hc2 ⊢
          tauto

/-- `takeWhile`/`dropWhile` split an all-satisfying prefix followed by a
failing character. -/
theorem takeWhile_dropWhile_append (p : Char → Bool) (xs : List Char)
    (y : Char) (ys : List Char) (hxs : ∀ c ∈ xs, p c = true)
    (hy : p y = false) :
    (xs ++ y :: ys).takeWhile p = xs ∧ (xs ++ y :: ys).dropWhile p = y :: ys := by
  induction xs with
  | nil =>
    simp [List.takeWhile_cons, List.dropWhile_cons, hy]
  | cons x xs ih =>
    have hx : p x = true := hxs x (List.mem_cons_self x xs)
    obtain ⟨iht, ihd⟩ := ih (fun c hc => hxs c (List.mem_cons_of_mem x hc))
    simp [List.takeWhile_cons, List.dropWhile_cons, hx, iht, ihd]

/-- The pattern tail accepts `-` plus a digit or `K`. -/
theorem matchTail_dash (dv : Char) (hdv : (dv.isDigit || dv == 'K') = true) :
    matchTail ['-', dv] = true := hdv

/-- `matchRest` accepts any chain of dotted three-digit groups followed
by the dash and check character. -/
theorem matchRest_chain (dv : Char) (hdv : (dv.isDigit || dv == 'K') = true) :
    ∀ (gs : List (List Char)) (g : List Char), g.length = 3 →
      (∀ c ∈ g, c.isDigit = true) →
      (∀ g2 ∈ gs, g2.length = 3 ∧ ∀ c ∈ g2, c.isDigit = true) →
      matchRest ('.' :: dotJoin (g :: gs) ++ ['-', dv]) = true := by
  intro gs
  induction gs with
  | nil =>
    intro g hlen hdig _
    match g, hlen with
    | [a, b, c], _ =>
      have ha : a.isDigit = true := hdig a (by simp)
      have hb : b.isDigit = true := hdig b (by simp)
      have hc : c.isDigit = true := hdig c (by simp)
      show (a.isDigit && b.isDigit && c.isDigit && matchRest ['-', dv]) = true
      simp only [ha, hb, hc, Bool.true_and]
      exact hdv
  | cons g2 gs2 ih =>
    intro g hlen hdig hgs
    match g, hlen with
    | [a, b, c], _ =>
      have ha : a.isDigit = true := hdig a (by simp)
      have hb : b.isDigit = true := hdig b (by simp)
      have hc : c.isDigit = true := hdig c (by simp)
      have hrest : matchRest ('.' :: dotJoin (g2 :: gs2) ++ ['-', dv]) = true := by
        refine ih g2 (hgs g2 (by simp)).1 (hgs g2 (by simp)).2 ?_
        intro g3 hg3
        exact hgs g3 (List.mem_cons_of_mem g2 hg3)
      show (a.isDigit && b.isDigit && c.isDigit &&
        matchRest ('.' :: dotJoin (g2 :: gs2) ++ ['-', dv])) = true
      simp only [ha, hb, hc, hrest, Bool.true_and]

/-- `(String.mk l).data = l`. -/
theorem data_mk (l : List Char) : (String.mk l).data = l := rfl

/-- Every kept character is a digit or `k`. -/
theorem mem_keptChars (raw : String) (c : Char) (hc : c ∈ keptChars raw) :
    (c.isDigit || c == 'k') = true :=
  (List.mem_filter.mp hc).2

/-- C5 counterexample: the input `"1k1"` succeeds (three kept
characters) but its canonical string `"1k-1"` does not match
`\d{1,3}(\.\d{3})*-[0-9K]` — the kept `k` lands in the body. -/
theorem format_rut_lenient_pattern_counterexample :
    format_rut_lenient "1k1" = some "1k-1" ∧
    matchesCanonical "1k-1" = false := by
  refine ⟨by decide, by decide⟩

/-- C5 amended: when normalization succeeds and the kept characters are
all digits except possibly the last one, the canonical string matches
`\d{1,3}(\.\d{3})*-[0-9K]`. -/
theorem format_rut_lenient_matches_pattern (raw : String)
    (h2 : 2 ≤ (keptChars raw).length)
    (hd : ∀ c ∈ (keptChars raw).dropLast, c.isDigit = true) :
    format_rut_lenient raw ≠ none ∧
    matchesCanonical ((format_rut_lenient raw).getD "") = true := by
  have hraw : raw ≠ "" := by
    intro he
    subst he
    have hk : keptChars "" = [] := rfl
    rw [hk] at h2
    simp at h2
  have hlen : ¬ (keptChars raw).length < 2 := by omega
  rw [format_rut_lenient_eq_some raw hraw hlen]
  refine ⟨by simp, ?_⟩
  rw [Option.getD_some]
  rcases List.eq_nil_or_concat (keptChars raw) with hnil | ⟨init, a, hsa⟩
  · rw [hnil] at h2
    simp at h2
  rw [List.concat_eq_append] at hsa
  have hbody : (keptChars raw).dropLast = init := by
    rw [hsa, List.dropLast_concat]
  have hlast : (keptChars raw).getLastD ' ' = a := by
    rw [hsa, List.getLastD_concat]
  have ha_kept : (a.isDigit || a == 'k') = true :=
    mem_keptChars raw a (by rw [hsa]; exact List.mem_append_right init (by simp))
  have hdv_ok : (a.toUpper.isDigit || a.toUpper == 'K') = true :=
    kept_toUpper_dv a ha_kept
  have hinit_ne : init ≠ [] := by
    intro he
    rw [hsa, he] at h2
    simp at h2
  have hinit_dig : ∀ c ∈ init, c.isDigit = true := by
    intro c hc
    exact hd c (hbody ▸ hc)
  obtain ⟨g, gs, hrev, hg1, hg3, hgmem, hgs⟩ :=
    chunksOf3_reverse_shape init.reverse (by simpa using hinit_ne)
  have hgdig : ∀ c ∈ g.reverse, c.isDigit = true := by
    intro c hc
    exact hinit_dig c (List.mem_reverse.mp (hgmem c (List.mem_reverse.mp hc)))
  rw [hbody, hlast, hrev]
  cases gs with
  | nil =>
    have hmapped :
        (List.map List.reverse (g :: [])) = [g.reverse] := rfl
    rw [hmapped]
    have hdot : dotJoin [g.reverse] = g.reverse := rfl
    rw [hdot]
    obtain ⟨htw, hdw⟩ := takeWhile_dropWhile_append Char.isDigit g.reverse '-'
      [a.toUpper] hgdig (by decide)
    simp only [matchesCanonical, data_mk]
    rw [htw, hdw]
    simp only [List.length_reverse, Bool.and_eq_true, decide_eq_true_eq]
    exact ⟨⟨hg1, hg3⟩, hdv_ok⟩
  | cons g2 gs2 =>
    have hmapped : (List.map List.reverse (g :: g2 :: gs2)) =
        g.reverse :: g2.reverse :: gs2.map List.reverse := rfl
    rw [hmapped]
    have hdot : dotJoin (g.reverse :: g2.reverse :: gs2.map List.reverse) =
        g.reverse ++ '.' :: dotJoin (g2.reverse :: gs2.map List.reverse) := rfl
    rw [hdot]
    have hassoc :
        (g.reverse ++ '.' :: dotJoin (g2.reverse :: gs2.map List.reverse)) ++
            ['-', a.toUpper] =
          g.reverse ++ '.' ::
            (dotJoin (g2.reverse :: gs2.map List.reverse) ++ ['-', a.toUpper]) := by
      simp [List.append_assoc]
    rw [hassoc]
    obtain ⟨htw, hdw⟩ := takeWhile_dropWhile_append Char.isDigit g.reverse '.'
      (dotJoin (g2.reverse :: gs2.map List.reverse) ++ ['-', a.toUpper]) hgdig
      (by decide)
    simp only [matchesCanonical, data_mk]
    rw [htw, hdw]
    have hchain : matchRest ('.' ::
        dotJoin (g2.reverse :: gs2.map List.reverse) ++ ['-', a.toUpper]) = true := by
      refine matchRest_chain a.toUpper hdv_ok (gs2.map List.reverse) g2.reverse
        ?_ ?_ ?_
      · rw [List.length_reverse]
        exact (hgs g2 (by simp)).1
      · intro c hc
        exact hinit_dig c
          (List.mem_reverse.mp ((hgs g2 (by simp)).2 c (List.mem_reverse.mp hc)))
      · intro g3 hg3
        obtain ⟨g4, hg4, hg34⟩ := List.mem_map.mp hg3
        subst hg34
        refine ⟨by rw [List.length_reverse]; exact (hgs g4 (by simp [hg4])).1, ?_⟩
        intro c hc
        exact hinit_dig c
          (List.mem_reverse.mp
            ((hgs g4 (by simp [hg4])).2 c (List.mem_reverse.mp hc)))
    simp only [List.length_reverse, Bool.and_eq_true, decide_eq_true_eq]
    exact ⟨⟨hg1, hg3⟩, hchain⟩

/-- Witness for the amended C5 at the running example. -/
theorem format_rut_lenient_matches_pattern_witness :
    format_rut_lenient "15421741K" ≠ none ∧
    matchesCanonical ((format_rut_lenient "15421741K").getD "") = true :=
  format_rut_lenient_matches_pattern "15421741K" (by decide) (by decide)

/-- Lower-casing then keeping digits/`k` over a dot-joined group list
recovers the concatenated groups, when every group character is kept. -/
theorem dotJoin_map_filter :
    ∀ gs : List (List Char),
      (∀ g ∈ gs, ∀ c ∈ g, (c.isDigit || c == 'k') = true) →
      ((dotJoin gs).map Char.toLower).filter (fun c => c.isDigit || c == 'k') =
        gs.flatten
  | [], _ => rfl
  | [g], h => by
    have hmap : g.map Char.toLower = g := by
      have : ∀ c ∈ g, Char.toLower c = c := fun c hc =>
        toLower_of_kept c (h g (by simp) c hc)
      calc g.map Char.toLower = g.map id := List.map_congr_left this
        _ = g := List.map_id g
    show ((dotJoin [g]).map Char.toLower).filter (fun c => c.isDigit || c == 'k') =
      [g].flatten
    have hdot : dotJoin [g] = g := rfl
    rw [hdot, hmap, List.filter_eq_self.mpr (h g (by simp))]
    simp
  | g :: g2 :: gs2, h => by
    have hmap : g.map Char.toLower = g := by
      have : ∀ c ∈ g, Char.toLower c = c := fun c hc =>
        toLower_of_kept c (h g (by simp) c hc)
      calc g.map Char.toLower = g.map id := List.map_congr_left this
        _ = g := List.map_id g
    have hdot : dotJoin (g :: g2 :: gs2) = g ++ '.' :: dotJoin (g2 :: gs2) := rfl
    have hih := dotJoin_map_filter (g2 :: gs2) (fun g3 hg3 =>
      h g3 (List.mem_cons_of_mem g hg3))
    rw [hdot, List.map_append, List.filter_append, hmap,
      List.filter_eq_self.mpr (h g (by simp)), List.map_cons]
    have hdotchar : Char.toLower '.' = '.' := by decide
    rw [hdotchar, List.filter_cons_of_neg (by decide), hih]
    rfl

/-- C6: `format_rut_lenient` is idempotent on its outputs. -/
theorem format_rut_lenient_idempotent (raw out : String)
    (h : format_rut_lenient raw = some out) :
    format_rut_lenient out = some out := by
  have hraw : raw ≠ "" := by
    intro he
    subst he
    rw [show format_rut_lenient "" = none from rfl] at h
    exact absurd h (by simp)
  have hlen : ¬ (keptChars raw).length < 2 := by
    intro hl
    rw [format_rut_lenient_eq_none raw hl] at h
    exact absurd h (by simp)
  have hout := format_rut_lenient_eq_some raw hraw hlen
  rw [h] at hout
  injection hout with hout
  rcases List.eq_nil_or_concat (keptChars raw) with hnil | ⟨init, a, hsa⟩
  · rw [hnil] at hlen
    simp at hlen
  rw [List.concat_eq_append] at hsa
  have hbody : (keptChars raw).dropLast = init := by
    rw [hsa, List.dropLast_concat]
  have hlast : (keptChars raw).getLastD ' ' = a := by
    rw [hsa, List.getLastD_concat]
  have ha_kept : (a.isDigit || a == 'k') = true :=
    mem_keptChars raw a (by rw [hsa]; exact List.mem_append_right init (by simp))
  have hout2 : out = String.mk
      (dotJoin (((chunksOf3 init.reverse).reverse).map List.reverse) ++
        ['-', a.toUpper]) := by
    rw [← hbody, ← hlast]
    exact hout
  have hgs_kept : ∀ g ∈ ((chunksOf3 init.reverse).reverse).map List.reverse,
      ∀ c ∈ g, (c.isDigit || c == 'k') = true := by
    intro g hg c hc
    obtain ⟨g4, hg4, hg4e⟩ := List.mem_map.mp hg
    subst hg4e
    have hc4 : c ∈ g4 := List.mem_reverse.mp hc
    have hcl : c ∈ init.reverse :=
      chunksOf3_mem init.reverse g4 (List.mem_reverse.mp hg4) c hc4
    exact mem_keptChars raw c
      (by rw [hsa]; exact List.mem_append_left [a] (List.mem_reverse.mp hcl))
  have hflat : (((chunksOf3 init.reverse).reverse).map List.reverse).flatten =
      init := by
    rw [List.map_reverse, ← List.reverse_flatten, chunksOf3_join,
      List.reverse_reverse]
  have hkept_out : keptChars out = keptChars raw := by
    rw [hout2]
    show (((dotJoin (((chunksOf3 init.reverse).reverse).map List.reverse) ++
        ['-', a.toUpper]).map Char.toLower).filter
        (fun c => c.isDigit || c == 'k')) = keptChars raw
    rw [List.map_append, List.filter_append,
      dotJoin_map_filter _ hgs_kept, hflat, List.map_cons, List.map_cons,
      List.map_nil]
    have hdash : Char.toLower '-' = '-' := by decide
    rw [hdash, toLower_toUpper_of_kept a ha_kept]
    have hne2 : (('-').isDigit || '-' == 'k') = false := by decide
    rw [show List.filter (fun c => c.isDigit || c == 'k') ['-', a] = [a] from by
      simp [List.filter_cons, hne2, ha_kept], hsa]
  have hout_ne : out ≠ "" := by
    rw [hout2]
    intro he
    have hdata := congrArg String.data he
    rw [data_mk] at hdata
    have h0 : ("" : String).data = [] := rfl
    rw [h0] at hdata
    simp at hdata
  have hlen_out : ¬ (keptChars out).length < 2 := by
    rw [hkept_out]
    exact hlen
  rw [format_rut_lenient_eq_some out hout_ne hlen_out, hkept_out, hout]

/-- Witness for C6: re-normalizing the canonical output of the running
example returns it unchanged. -/
theorem format_rut_lenient_idempotent_witness :
    format_rut_lenient "15.421.741-K" = some "15.421.741-K" :=
  format_rut_lenient_idempotent "15421741K" "15.421.741-K" (by decide)
